import Mathlib

/-!
Shallow embedding of src/main.py, a FastAPI service that enriches rows of a
"competitors" table with LLM-generated positioning text.

External collaborators (the OpenAI completion API and the Supabase data store)
are modelled as oracles with explicit fault injection; the store itself is a
list of rows, and every remote call issued by the service is recorded in a
trace so that claims about which calls are (not) issued can be stated.

Python exceptions are modelled with Except. A raised fastapi HTTPException is
an ordinary Exception subclass in Python, so the blanket except-Exception
handlers in the route bodies catch it; its str() is "status: detail"
(starlette HTTPException defines this). The model reproduces this.
-/

namespace CompetitorPositioning

/-- Row of the competitors table (src/main.py lines 43-46: CompetitorResponse
mirrors the table columns the service reads and writes). -/
structure Competitor where
  id : Int
  competitor_name : String
  competitor_positioning : Option String
deriving DecidableEq, Repr

/-- Response model returned by the service (src/main.py lines 43-46). -/
structure CompetitorResponse where
  id : Int
  competitor_name : String
  competitor_positioning : Option String
deriving DecidableEq, Repr

/-- The competitors table held by the external data store. -/
structure Store where
  rows : List Competitor
deriving DecidableEq, Repr

/-- The select filtered by id (src/main.py line 102):
table.select(all).eq(id, competitor_id).execute(). -/
def Store.selectById (s : Store) (cid : Int) : List Competitor :=
  s.rows.filter (fun r => decide (r.id = cid))

/-- The select of (id, competitor_name) filtered on null positioning
(src/main.py line 124). -/
def Store.selectNullPositioning (s : Store) : List (Int × String) :=
  (s.rows.filter (fun r => decide (r.competitor_positioning = none))).map
    (fun r => (r.id, r.competitor_name))

/-- Effect on one row of update(competitor_positioning := pos).eq(id, cid):
only the competitor_positioning column of matching rows is written. -/
def setPositioning (cid : Int) (pos : String) (r : Competitor) : Competitor :=
  if r.id = cid then { r with competitor_positioning := some pos } else r

/-- The update-by-id call (src/main.py lines 79-81): returns the new table
together with the affected rows (Supabase returns the updated rows). -/
def Store.updateById (s : Store) (cid : Int) (pos : String) :
    Store × List Competitor :=
  let newRows := s.rows.map (setPositioning cid pos)
  (⟨newRows⟩, newRows.filter (fun r => decide (r.id = cid)))

/-- One remote call against the data store. The update call carries exactly
the payload the code sends: the single competitor_positioning field. -/
inductive StoreCall
  | selectById (cid : Int)
  | selectNullPositioning
  | updateById (cid : Int) (competitor_positioning : String)
deriving DecidableEq, Repr

/-- One remote call issued by the service. -/
inductive Call
  | store (c : StoreCall)
  | completion (competitor_name : String)
deriving DecidableEq, Repr

/-- Oracles for the two external collaborators, with fault injection.
complete gives the list of choice contents the completion API returns for the
prompt built from a competitor name (or the message of a raised exception);
the three fault fields make a given store call raise. -/
structure Clients where
  complete : String → Except String (List String)
  selectByIdFault : Option String
  selectNullFault : Option String
  updateFault : Int → Option String

/-- Prompt template of get_market_positioning (src/main.py lines 53-60). -/
def positioning_prompt (competitor_name : String) : String :=
  "Analyze " ++ competitor_name ++
    "'s loyalty program market positioning and target audience.\n" ++
    "   Consider:\n" ++
    "   - Primary target demographic\n" ++
    "   - Market positioning (premium, value, etc.)\n" ++
    "   - Unique value proposition\n" ++
    "   - How the loyalty program supports their market position\n" ++
    "   \n" ++
    "   Provide this as a single, well-formatted paragraph focusing on " ++
    "who they target and how they position themselves."

/-- get_market_positioning (src/main.py lines 48-70): calls the completion
API and returns the first choice content stripped of surrounding whitespace.
Indexing choices[0] on an empty list raises IndexError. -/
def get_market_positioning (c : Clients) (competitor_name : String) :
    Except String String × List Call :=
  match c.complete competitor_name with
  | .error e => (.error e, [Call.completion competitor_name])
  | .ok [] =>
      (.error "list index out of range", [Call.completion competitor_name])
  | .ok (choice :: _) => (.ok choice.trim, [Call.completion competitor_name])

/-- update_competitor_positioning (src/main.py lines 72-86): analyze, then
write the result to the store, then read back the first affected row.
Indexing response.data[0] on an empty affected-row list raises IndexError. -/
def update_competitor_positioning (c : Clients) (s : Store) (cid : Int)
    (competitor_name : String) :
    Except String CompetitorResponse × Store × List Call :=
  match get_market_positioning c competitor_name with
  | (.error e, t) => (.error e, s, t)
  | (.ok positioning, t) =>
    match c.updateFault cid with
    | some e => (.error e, s, t ++ [Call.store (.updateById cid positioning)])
    | none =>
      let upd := Store.updateById s cid positioning
      match upd.2 with
      | [] =>
          (.error "list index out of range", upd.1,
            t ++ [Call.store (.updateById cid positioning)])
      | u :: _ =>
          (.ok ⟨u.id, u.competitor_name, u.competitor_positioning⟩, upd.1,
            t ++ [Call.store (.updateById cid positioning)])

/-- Python exception value as observed by the handlers: either a raised
HTTPException or a generic exception carrying its message. -/
inductive Exc
  | httpException (status : Nat) (detail : String)
  | error (msg : String)
deriving DecidableEq, Repr

/-- The str() of an exception: starlette HTTPException prints
"status: detail"; a generic exception prints its message. -/
def excStr : Exc → String
  | .httpException status detail => toString status ++ ": " ++ detail
  | .error msg => msg

/-- HTTP outcome of a route: a 200 body or an error status with a detail. -/
inductive Response (α : Type)
  | success (body : α)
  | failure (status : Nat) (detail : String)
deriving DecidableEq, Repr

/-- Body of the try block of update_single_competitor
(src/main.py lines 99-111). -/
def update_single_body (c : Clients) (s : Store) (cid : Int) :
    Except Exc CompetitorResponse × Store × List Call :=
  match c.selectByIdFault with
  | some e => (.error (.error e), s, [Call.store (.selectById cid)])
  | none =>
    match s.selectById cid with
    | [] =>
        (.error (.httpException 404 "Competitor not found"), s,
          [Call.store (.selectById cid)])
    | competitor :: _ =>
      match update_competitor_positioning c s cid
          competitor.competitor_name with
      | (.error e, s1, t) =>
          (.error (.error e), s1, Call.store (.selectById cid) :: t)
      | (.ok r, s1, t) => (.ok r, s1, Call.store (.selectById cid) :: t)

/-- Route POST /update-single/competitor_id (src/main.py lines 93-115).
The except-Exception clause at line 113 catches every exception raised in
the body, including the HTTPException(404) raised at line 106, and re-raises
HTTPException(500, str(e)). -/
def update_single_competitor (c : Clients) (s : Store) (cid : Int) :
    Response CompetitorResponse × Store × List Call :=
  match update_single_body c s cid with
  | (.ok r, s1, t) => (.success r, s1, t)
  | (.error e, s1, t) => (.failure 500 (excStr e), s1, t)

/-- Body of the 200 response of /update-all (src/main.py lines 128, 141-145). -/
inductive BatchBody
  | noCompetitors
  | batchSuccess (total_processed : Nat)
      (updated_competitors : List CompetitorResponse)
deriving DecidableEq, Repr

/-- The per-row loop of update_all_competitors (src/main.py lines 133-139):
each row is processed under its own try; a failing row is logged and
skipped, a successful row is appended to the accumulator. -/
def processRows (c : Clients) :
    List (Int × String) → Store → List CompetitorResponse × Store × List Call
  | [], s => ([], s, [])
  | row :: rest, s =>
    match update_competitor_positioning c s row.1 row.2 with
    | (.ok r, s1, t1) =>
      let res := processRows c rest s1
      (r :: res.1, res.2.1, t1 ++ res.2.2)
    | (.error _, s1, t1) =>
      let res := processRows c rest s1
      (res.1, res.2.1, t1 ++ res.2.2)

/-- Route POST /update-all (src/main.py lines 117-149). -/
def update_all_competitors (c : Clients) (s : Store) :
    Response BatchBody × Store × List Call :=
  match c.selectNullFault with
  | some e => (.failure 500 e, s, [Call.store .selectNullPositioning])
  | none =>
    if s.selectNullPositioning = [] then
      (.success .noCompetitors, s, [Call.store .selectNullPositioning])
    else
      let res := processRows c s.selectNullPositioning s
      (.success (.batchSuccess res.1.length res.1), res.2.1,
        Call.store .selectNullPositioning :: res.2.2)

/-- Environment variables read at process start (src/main.py lines 23, 35,
38-41); none means the variable is unset. -/
structure EnvVars where
  OPENAI_API_KEY : Option String
  SUPABASE_URL : Option String
  SUPABASE_KEY : Option String
deriving DecidableEq, Repr

/-- Python truthiness of an os.getenv result, as tested by
all([...]) at src/main.py line 23: None and the empty string are falsy. -/
def truthy : Option String → Bool
  | none => false
  | some s => !s.isEmpty

/-- Startup part of the lifespan handler (src/main.py lines 18-27): it checks
the three variables, logs either outcome, and yields; it has no raise path. -/
def lifespan_startup (e : EnvVars) : Except String (List String) :=
  .ok (["Starting up application...", "Checking environment variables..."] ++
    (if truthy e.OPENAI_API_KEY && truthy e.SUPABASE_URL &&
        truthy e.SUPABASE_KEY then
      ["All required environment variables are set"]
    else
      ["Missing required environment variables!"]))

/-- Configuration captured by the module-level client objects
(src/main.py lines 35, 38-41). -/
structure ModuleClients where
  openai_api_key : Option String
  supabase_url : Option String
  supabase_key : Option String
deriving DecidableEq, Repr

/-- Modelled from the spec: the constructors of the external OpenAI and
Supabase client objects (src/main.py lines 35 and 38-41) are third-party
library code not present in this repository; per the spec (sections 2 and 7)
they record the given configuration at process start and defer any failure
caused by missing configuration to the first remote call, so construction
itself always succeeds. -/
def module_init (e : EnvVars) : Except String ModuleClients :=
  .ok ⟨e.OPENAI_API_KEY, e.SUPABASE_URL, e.SUPABASE_KEY⟩

/-- Whole process startup: module-level client construction followed by the
lifespan startup block. -/
def process_startup (e : EnvVars) :
    Except String (ModuleClients × List String) :=
  match module_init e with
  | .error m => .error m
  | .ok clients =>
    match lifespan_startup e with
    | .error m => .error m
    | .ok logs => .ok (clients, logs)

/-- The (id, competitor_name) projection of the table: everything a row
carries except the positioning column. -/
def Store.skeleton (s : Store) : List (Int × String) :=
  s.rows.map (fun r => (r.id, r.competitor_name))

/-- Clients whose completion API always answers with one choice. -/
def okClients : Clients :=
  ⟨fun _ => .ok ["analysis text"], none, none, fun _ => none⟩

/-- Clients whose completion API always raises. -/
def downClients : Clients :=
  ⟨fun _ => .error "connection error", none, none, fun _ => none⟩

/-- Clients whose store selects always raise. -/
def faultyClients : Clients :=
  ⟨fun _ => .error "connection error", some "select boom", some "select boom",
    fun _ => none⟩

/-- Clients for which only the update on id 2 raises. -/
def batchClients : Clients :=
  ⟨fun _ => .ok ["text"], none, none,
    fun i => if i = 2 then some "row boom" else none⟩

lemma setPositioning_id (cid : Int) (pos : String) (r : Competitor) :
    (setPositioning cid pos r).id = r.id := by
  unfold setPositioning; split <;> rfl

lemma setPositioning_name (cid : Int) (pos : String) (r : Competitor) :
    (setPositioning cid pos r).competitor_name = r.competitor_name := by
  unfold setPositioning; split <;> rfl

lemma filter_id_nil (rows : List Competitor) (cid : Int)
    (h : ∀ x ∈ rows, x.id ≠ cid) :
    rows.filter (fun r => decide (r.id = cid)) = [] := by
  rw [List.filter_eq_nil_iff]
  intro a ha
  simpa using h a ha

lemma filter_id_singleton (rows : List Competitor) (cid : Int)
    (hnd : (rows.map Competitor.id).Nodup)
    (r : Competitor) (hr : r ∈ rows) (hid : r.id = cid) :
    rows.filter (fun x => decide (x.id = cid)) = [r] := by
  induction rows with
  | nil => cases hr
  | cons a as ih =>
    rw [List.map_cons, List.nodup_cons] at hnd
    rcases List.mem_cons.mp hr with h1 | h1
    · subst h1
      rw [List.filter_cons_of_pos (by simpa using hid)]
      rw [filter_id_nil as cid]
      intro x hx hxid
      exact hnd.1 (by rw [hid, ← hxid]; exact List.mem_map_of_mem _ hx)
    · have hane : a.id ≠ cid := by
        intro hac
        exact hnd.1 (by rw [hac, ← hid]; exact List.mem_map_of_mem _ h1)
      rw [List.filter_cons_of_neg (by simpa using hane)]
      exact ih hnd.2 h1

lemma map_id_setPositioning (rows : List Competitor) (cid : Int)
    (pos : String) :
    (rows.map (setPositioning cid pos)).map Competitor.id =
      rows.map Competitor.id := by
  rw [List.map_map]
  congr 1
  funext r
  exact setPositioning_id cid pos r

lemma map_name_setPositioning (rows : List Competitor) (cid : Int)
    (pos : String) :
    (rows.map (setPositioning cid pos)).map Competitor.competitor_name =
      rows.map Competitor.competitor_name := by
  rw [List.map_map]
  congr 1
  funext r
  exact setPositioning_name cid pos r

lemma updateById_affected (s : Store) (cid : Int) (pos : String)
    (hnd : (s.rows.map Competitor.id).Nodup)
    (r : Competitor) (hr : r ∈ s.rows) (hid : r.id = cid) :
    (s.updateById cid pos).2 =
      [{ r with competitor_positioning := some pos }] := by
  have hset : setPositioning cid pos r =
      { r with competitor_positioning := some pos } := by
    unfold setPositioning; rw [if_pos hid]
  unfold Store.updateById
  apply filter_id_singleton
  · rw [map_id_setPositioning]; exact hnd
  · rw [← hset]; exact List.mem_map_of_mem _ hr
  · exact hid

lemma get_market_positioning_ok (c : Clients) (name ch : String)
    (rest : List String) (hcomp : c.complete name = .ok (ch :: rest)) :
    get_market_positioning c name = (.ok ch.trim, [Call.completion name]) := by
  unfold get_market_positioning
  rw [hcomp]

lemma get_market_positioning_error (c : Clients) (name m : String)
    (hcomp : c.complete name = .error m) :
    get_market_positioning c name = (.error m, [Call.completion name]) := by
  unfold get_market_positioning
  rw [hcomp]

lemma update_compet_ok (c : Clients) (s : Store) (cid : Int)
    (name ch : String) (rest : List String)
    (hnd : (s.rows.map Competitor.id).Nodup)
    (r : Competitor) (hr : r ∈ s.rows) (hid : r.id = cid)
    (hname : r.competitor_name = name)
    (hfault : c.updateFault cid = none)
    (hcomp : c.complete name = .ok (ch :: rest)) :
    update_competitor_positioning c s cid name =
      (.ok ⟨cid, name, some ch.trim⟩,
       ⟨s.rows.map (setPositioning cid ch.trim)⟩,
       [Call.completion name, Call.store (.updateById cid ch.trim)]) := by
  have haff := updateById_affected s cid ch.trim hnd r hr hid
  unfold update_competitor_positioning
  rw [get_market_positioning_ok c name ch rest hcomp]
  simp only [hfault, haff]
  rw [← hid, ← hname]
  rfl

lemma update_compet_completion_error (c : Clients) (s : Store) (cid : Int)
    (name m : String) (hcomp : c.complete name = .error m) :
    update_competitor_positioning c s cid name =
      (.error m, s, [Call.completion name]) := by
  unfold update_competitor_positioning
  rw [get_market_positioning_error c name m hcomp]

lemma update_compet_updateFault (c : Clients) (s : Store) (cid : Int)
    (name ch : String) (rest : List String) (e : String)
    (hcomp : c.complete name = .ok (ch :: rest))
    (hfault : c.updateFault cid = some e) :
    update_competitor_positioning c s cid name =
      (.error e, s,
       [Call.completion name, Call.store (.updateById cid ch.trim)]) := by
  unfold update_competitor_positioning
  rw [get_market_positioning_ok c name ch rest hcomp]
  simp only [hfault]
  rfl

lemma update_compet_store_shape (c : Clients) (s : Store) (cid : Int)
    (name : String) :
    (update_competitor_positioning c s cid name).2.1 = s ∨
    ∃ pos, (update_competitor_positioning c s cid name).2.1 =
      ⟨s.rows.map (setPositioning cid pos)⟩ := by
  unfold update_competitor_positioning
  rcases hg : get_market_positioning c name with ⟨res, t⟩
  cases res with
  | error e => left; rfl
  | ok pos =>
    cases hf : c.updateFault cid with
    | some e => left; simp only [hf]
    | none =>
      right
      refine ⟨pos, ?_⟩
      simp only [hf]
      rcases haff : (Store.updateById s cid pos).2 with _ | ⟨u, us⟩ <;>
        simp only [haff] <;> rfl

lemma skeleton_set (s : Store) (cid : Int) (pos : String) :
    (⟨s.rows.map (setPositioning cid pos)⟩ : Store).skeleton = s.skeleton := by
  unfold Store.skeleton
  simp only [List.map_map]
  congr 1
  funext r
  simp [Function.comp, setPositioning_id, setPositioning_name]

lemma update_compet_skeleton (c : Clients) (s : Store) (cid : Int)
    (name : String) :
    ((update_competitor_positioning c s cid name).2.1).skeleton =
      s.skeleton := by
  rcases update_compet_store_shape c s cid name with h | ⟨pos, h⟩
  · rw [h]
  · rw [h, skeleton_set]

lemma map_id_eq_skeleton_fst (s : Store) :
    s.rows.map Competitor.id = s.skeleton.map Prod.fst := by
  unfold Store.skeleton
  rw [List.map_map]
  rfl

lemma selectNull_subset_skeleton (s : Store) (p : Int × String)
    (hp : p ∈ s.selectNullPositioning) : p ∈ s.skeleton := by
  unfold Store.selectNullPositioning at hp
  unfold Store.skeleton
  rcases List.mem_map.mp hp with ⟨r, hr, he⟩
  rw [← he]
  exact List.mem_map_of_mem _ (List.mem_of_mem_filter hr)

lemma mem_skeleton_row (s : Store) (p : Int × String) (hp : p ∈ s.skeleton) :
    ∃ r ∈ s.rows, r.id = p.1 ∧ r.competitor_name = p.2 := by
  unfold Store.skeleton at hp
  rcases List.mem_map.mp hp with ⟨r, hr, he⟩
  exact ⟨r, hr, congrArg Prod.fst he, congrArg Prod.snd he⟩

lemma processRows_all_ok (c : Clients) (f : String → String)
    (rows : List (Int × String)) :
    ∀ s : Store,
      (∀ p ∈ rows, p ∈ s.skeleton) →
      (s.rows.map Competitor.id).Nodup →
      (∀ p ∈ rows, c.updateFault p.1 = none) →
      (∀ p ∈ rows, ∃ rest, c.complete p.2 = .ok (f p.2 :: rest)) →
      (processRows c rows s).1 =
        rows.map (fun p => ⟨p.1, p.2, some (f p.2).trim⟩) ∧
      ((processRows c rows s).2.1).skeleton = s.skeleton := by
  induction rows with
  | nil => intro s _ _ _ _; exact ⟨rfl, rfl⟩
  | cons p rest ih =>
    intro s hmem hnd hupd hcomp
    obtain ⟨r, hr, hid, hname⟩ :=
      mem_skeleton_row s p (hmem p (List.mem_cons_self p rest))
    obtain ⟨tail, htail⟩ := hcomp p (List.mem_cons_self p rest)
    have hstep := update_compet_ok c s p.1 p.2 (f p.2) tail hnd r hr hid
      hname (hupd p (List.mem_cons_self p rest)) htail
    have hskel : ((⟨s.rows.map (setPositioning p.1 ((f p.2).trim))⟩ :
        Store)).skeleton = s.skeleton := skeleton_set s p.1 ((f p.2).trim)
    have hnd1 : (((⟨s.rows.map (setPositioning p.1 ((f p.2).trim))⟩ :
        Store)).rows.map Competitor.id).Nodup := by
      rw [map_id_eq_skeleton_fst, hskel, ← map_id_eq_skeleton_fst]
      exact hnd
    obtain ⟨hlist, hskel2⟩ :=
      ih ⟨s.rows.map (setPositioning p.1 ((f p.2).trim))⟩
        (fun q hq => by rw [hskel]; exact hmem q (List.mem_cons_of_mem p hq))
        hnd1
        (fun q hq => hupd q (List.mem_cons_of_mem p hq))
        (fun q hq => hcomp q (List.mem_cons_of_mem p hq))
    constructor
    · simp only [processRows, hstep, hlist, List.map_cons]
    · simp only [processRows, hstep]
      rw [hskel2, hskel]

lemma processRows_append (c : Clients) (rows1 rows2 : List (Int × String)) :
    ∀ s : Store,
      processRows c (rows1 ++ rows2) s =
        ((processRows c rows1 s).1 ++
           (processRows c rows2 (processRows c rows1 s).2.1).1,
         (processRows c rows2 (processRows c rows1 s).2.1).2.1,
         (processRows c rows1 s).2.2 ++
           (processRows c rows2 (processRows c rows1 s).2.1).2.2) := by
  induction rows1 with
  | nil => intro s; simp [processRows]
  | cons p rest ih =>
    intro s
    rw [List.cons_append]
    rcases h : update_competitor_positioning c s p.1 p.2 with ⟨res, s1, t1⟩
    cases res <;> simp [processRows, h, ih s1, List.append_assoc]

/-- C1. The claim says that when select-by-id returns no rows the response is
404 with detail "Competitor not found". On the code it is not: the
HTTPException(404) raised at src/main.py line 106 is itself an Exception, so
the blanket except clause at line 113 catches it and re-raises
HTTPException(500, str(e)); the response is a 500 whose detail is the
stringified 404 exception. This theorem evaluates the route at the failing
input (empty store, competitor_id 1). -/
theorem update_single_absent_responds_500 :
    (update_single_competitor downClients ⟨[]⟩ 1).1 =
      .failure 500 "404: Competitor not found" := rfl

/-- C4. Every exception raised in the body of /update-single is answered
with status 500 and the exception text as detail, and an exception of the
initial select of /update-all (outside the per-row try) is answered with
status 500 and its message as detail. -/
theorem spec_unhandled_exceptions_500 (c : Clients) (s : Store) (cid : Int)
    (e : Exc) (m : String) :
    ((update_single_body c s cid).1 = .error e →
      (update_single_competitor c s cid).1 = .failure 500 (excStr e)) ∧
    (c.selectNullFault = some m →
      (update_all_competitors c s).1 = .failure 500 m) := by
  constructor
  · intro h
    unfold update_single_competitor
    rcases hb : update_single_body c s cid with ⟨res, s1, t⟩
    rw [hb] at h
    cases res with
    | ok r => exact absurd h (by simp)
    | error e2 =>
      have : e2 = e := by simpa using h
      rw [this]
  · intro h
    unfold update_all_competitors
    rw [h]

/-- Witness for C4 at a concrete input: with both select faults set, the
single route answers 500 "select boom" and the batch route answers
500 "select boom". -/
theorem spec_unhandled_exceptions_500_witness :
    (update_single_competitor faultyClients ⟨[]⟩ 1).1 =
      .failure 500 "select boom" ∧
    (update_all_competitors faultyClients ⟨[]⟩).1 =
      .failure 500 "select boom" :=
  ⟨(spec_unhandled_exceptions_500 faultyClients ⟨[]⟩ 1
      (.error "select boom") "select boom").1 rfl,
   (spec_unhandled_exceptions_500 faultyClients ⟨[]⟩ 1
      (.error "select boom") "select boom").2 rfl⟩

/-- C5. When the store update affects no rows (no row carries the requested
id), update_competitor_positioning fails with the IndexError message of the
response.data[0] access (src/main.py line 83), a generic error rather than a
404 HTTPException. -/
theorem spec_update_no_rows_index_error (c : Clients) (s : Store) (cid : Int)
    (name ch : String) (rest : List String)
    (hcomp : c.complete name = .ok (ch :: rest))
    (hfault : c.updateFault cid = none)
    (habsent : ∀ r ∈ s.rows, r.id ≠ cid) :
    (update_competitor_positioning c s cid name).1 =
      .error "list index out of range" := by
  have haff : (Store.updateById s cid ch.trim).2 = [] := by
    unfold Store.updateById
    apply filter_id_nil
    intro x hx
    rcases List.mem_map.mp hx with ⟨y, hy, he⟩
    rw [← he, setPositioning_id]
    exact habsent y hy
  unfold update_competitor_positioning
  rw [get_market_positioning_ok c name ch rest hcomp]
  simp only [hfault, haff]

/-- Witness for C5: a store whose only row has id 2, updated under id 1. -/
theorem spec_update_no_rows_index_error_witness :
    (update_competitor_positioning okClients ⟨[⟨2, "B", none⟩]⟩ 1 "B").1 =
      .error "list index out of range" :=
  spec_update_no_rows_index_error okClients ⟨[⟨2, "B", none⟩]⟩ 1 "B"
    "analysis text" [] rfl rfl (by decide)

/-- C6. When the select filtered on null positioning returns no rows,
/update-all responds 200 with the no-competitors status, leaves the store
untouched, and the only remote call issued is that select. -/
theorem spec_update_all_empty_select (c : Clients) (s : Store)
    (hsel : c.selectNullFault = none)
    (hempty : s.selectNullPositioning = []) :
    update_all_competitors c s =
      (.success .noCompetitors, s, [Call.store .selectNullPositioning]) := by
  unfold update_all_competitors
  rw [hsel, hempty]
  simp

/-- Witness for C6: a store whose single row already has a positioning. -/
theorem spec_update_all_empty_select_witness :
    update_all_competitors okClients ⟨[⟨1, "A", some "done"⟩]⟩ =
      (.success .noCompetitors, ⟨[⟨1, "A", some "done"⟩]⟩,
       [Call.store .selectNullPositioning]) :=
  spec_update_all_empty_select okClients ⟨[⟨1, "A", some "done"⟩]⟩ rfl rfl

/-- C7. For an id no row carries, /update-single issues only the select: the
store is returned unchanged and the trace holds the select call alone, so no
update call and no completion call is made. -/
theorem spec_update_single_absent_no_writes (c : Clients) (s : Store)
    (cid : Int)
    (hsel : c.selectByIdFault = none)
    (habsent : ∀ r ∈ s.rows, r.id ≠ cid) :
    (update_single_competitor c s cid).2.1 = s ∧
    (update_single_competitor c s cid).2.2 =
      [Call.store (.selectById cid)] := by
  have hsb : s.selectById cid = [] := filter_id_nil s.rows cid habsent
  unfold update_single_competitor update_single_body
  rw [hsel, hsb]
  exact ⟨rfl, rfl⟩

/-- Witness for C7: a store whose only row has id 2, queried under id 1. -/
theorem spec_update_single_absent_no_writes_witness :
    (update_single_competitor okClients ⟨[⟨2, "B", none⟩]⟩ 1).2.1 =
      (⟨[⟨2, "B", none⟩]⟩ : Store) ∧
    (update_single_competitor okClients ⟨[⟨2, "B", none⟩]⟩ 1).2.2 =
      [Call.store (.selectById 1)] :=
  spec_update_single_absent_no_writes okClients ⟨[⟨2, "B", none⟩]⟩ 1
    rfl (by decide)

/-- C8. Process startup always succeeds: the module-level client
construction and the lifespan startup block have no raise path, and the
startup log records the missing-variable error exactly when one of the
three variables is unset or empty. -/
theorem spec_startup_missing_env_ok (e : EnvVars) :
    ∃ clients logs, process_startup e = .ok (clients, logs) ∧
      ((truthy e.OPENAI_API_KEY && truthy e.SUPABASE_URL &&
          truthy e.SUPABASE_KEY) = false ↔
        "Missing required environment variables!" ∈ logs) := by
  cases h : truthy e.OPENAI_API_KEY && truthy e.SUPABASE_URL &&
      truthy e.SUPABASE_KEY with
  | false =>
    refine ⟨⟨e.OPENAI_API_KEY, e.SUPABASE_URL, e.SUPABASE_KEY⟩,
      ["Starting up application...", "Checking environment variables...",
       "Missing required environment variables!"], ?_, ?_⟩
    · simp [process_startup, module_init, lifespan_startup, h]
    · simp
  | true =>
    refine ⟨⟨e.OPENAI_API_KEY, e.SUPABASE_URL, e.SUPABASE_KEY⟩,
      ["Starting up application...", "Checking environment variables...",
       "All required environment variables are set"], ?_, ?_⟩
    · simp [process_startup, module_init, lifespan_startup, h]
    · simp

/-- C9. When the completion client raises, update_competitor_positioning
propagates the failure, issues no store call at all (the trace holds only
the completion call), and returns the store unchanged: the completion call
strictly precedes the store write. -/
theorem spec_completion_failure_no_write (c : Clients) (s : Store)
    (cid : Int) (name m : String)
    (hcomp : c.complete name = .error m) :
    update_competitor_positioning c s cid name =
      (.error m, s, [Call.completion name]) :=
  update_compet_completion_error c s cid name m hcomp

/-- Witness for C9: a completion client that always raises. -/
theorem spec_completion_failure_no_write_witness :
    update_competitor_positioning downClients ⟨[⟨1, "A", none⟩]⟩ 1 "A" =
      (.error "connection error", ⟨[⟨1, "A", none⟩]⟩,
       [Call.completion "A"]) :=
  spec_completion_failure_no_write downClients ⟨[⟨1, "A", none⟩]⟩ 1 "A"
    "connection error" rfl

/-- C10. The write of update_competitor_positioning touches only the
competitor_positioning column: the id and competitor_name columns of every
row are unchanged, and every row whose id differs from the requested one is
left entirely unchanged, in place. -/
theorem spec_update_writes_only_positioning (c : Clients) (s : Store)
    (cid : Int) (name : String) :
    ((update_competitor_positioning c s cid name).2.1).rows.map
        Competitor.id = s.rows.map Competitor.id ∧
    ((update_competitor_positioning c s cid name).2.1).rows.map
        Competitor.competitor_name =
      s.rows.map Competitor.competitor_name ∧
    ∀ (i : Nat) (r : Competitor), s.rows[i]? = some r → r.id ≠ cid →
      ((update_competitor_positioning c s cid name).2.1).rows[i]? =
        some r := by
  rcases update_compet_store_shape c s cid name with h | ⟨pos, h⟩
  · rw [h]
    exact ⟨rfl, rfl, fun i r hi _ => hi⟩
  · rw [h]
    refine ⟨map_id_setPositioning s.rows cid pos,
      map_name_setPositioning s.rows cid pos, ?_⟩
    intro i r hi hne
    show (s.rows.map (setPositioning cid pos))[i]? = some r
    rw [List.getElem?_map, hi]
    simp [setPositioning, hne]

/-- Witness for C10: updating id 1 leaves the row with id 2 in place. -/
theorem spec_update_writes_only_positioning_witness :
    ((update_competitor_positioning okClients ⟨[⟨2, "B", none⟩]⟩ 1
        "B").2.1).rows.map Competitor.id = [2] ∧
    ((update_competitor_positioning okClients ⟨[⟨2, "B", none⟩]⟩ 1
        "B").2.1).rows[0]? = some ⟨2, "B", none⟩ :=
  ⟨(spec_update_writes_only_positioning okClients ⟨[⟨2, "B", none⟩]⟩ 1
      "B").1,
   (spec_update_writes_only_positioning okClients ⟨[⟨2, "B", none⟩]⟩ 1
      "B").2.2 0 ⟨2, "B", none⟩ rfl (by decide)⟩

/-- C2. For an id carried by a row of the store, /update-single answers 200
with a record whose positioning is exactly the first completion choice
trimmed, and the update call sent to the store carries that same trimmed
string; the new store is the old one with that positioning written. -/
theorem spec_update_single_present (c : Clients) (s : Store) (cid : Int)
    (ch : String) (rest : List String) (r : Competitor)
    (hnd : (s.rows.map Competitor.id).Nodup)
    (hr : r ∈ s.rows) (hid : r.id = cid)
    (hsel : c.selectByIdFault = none)
    (hfault : c.updateFault cid = none)
    (hcomp : c.complete r.competitor_name = .ok (ch :: rest)) :
    update_single_competitor c s cid =
      (.success ⟨cid, r.competitor_name, some ch.trim⟩,
       ⟨s.rows.map (setPositioning cid ch.trim)⟩,
       [Call.store (.selectById cid), Call.completion r.competitor_name,
        Call.store (.updateById cid ch.trim)]) := by
  have hsb : s.selectById cid = [r] :=
    filter_id_singleton s.rows cid hnd r hr hid
  have hupd := update_compet_ok c s cid r.competitor_name ch rest hnd r hr
    hid rfl hfault hcomp
  unfold update_single_competitor update_single_body
  rw [hsel, hsb]
  simp only [hupd]

/-- Witness for C2: a one-row store holding id 1 "Acme" and a completion
client answering one choice. -/
theorem spec_update_single_present_witness :
    update_single_competitor okClients ⟨[⟨1, "Acme", none⟩]⟩ 1 =
      (.success ⟨1, "Acme", some "analysis text".trim⟩,
       ⟨[Competitor.mk 1 "Acme" none].map
          (setPositioning 1 "analysis text".trim)⟩,
       [Call.store (.selectById 1), Call.completion "Acme",
        Call.store (.updateById 1 "analysis text".trim)]) :=
  spec_update_single_present okClients ⟨[⟨1, "Acme", none⟩]⟩ 1
    "analysis text" [] ⟨1, "Acme", none⟩ (by decide)
    (List.mem_singleton.mpr rfl) rfl rfl rfl rfl

/-- C3. When the filtered select returns the rows l1 ++ p :: l2, the update
of row p raises, and every other row succeeds, /update-all answers 200 with
total_processed equal to the count of the other rows and
updated_competitors holding exactly the updated records of l1 ++ l2 in
their original relative order; the failing row is silently dropped. -/
theorem spec_update_all_one_failure (c : Clients) (s : Store)
    (l1 l2 : List (Int × String)) (p : Int × String) (e : String)
    (f : String → String)
    (hsel : c.selectNullFault = none)
    (hrows : s.selectNullPositioning = l1 ++ p :: l2)
    (hnd : (s.rows.map Competitor.id).Nodup)
    (hok : ∀ q ∈ l1 ++ l2, c.updateFault q.1 = none)
    (hfail : c.updateFault p.1 = some e)
    (hcomp : ∀ q ∈ l1 ++ p :: l2, ∃ rest,
      c.complete q.2 = .ok (f q.2 :: rest)) :
    (update_all_competitors c s).1 =
      .success (.batchSuccess (l1 ++ l2).length
        ((l1 ++ l2).map (fun q => ⟨q.1, q.2, some (f q.2).trim⟩))) := by
  have hmem : ∀ q ∈ l1 ++ p :: l2, q ∈ s.skeleton := by
    intro q hq
    exact selectNull_subset_skeleton s q (by rw [hrows]; exact hq)
  obtain ⟨h1, hskel1⟩ := processRows_all_ok c f l1 s
    (fun q hq => hmem q (List.mem_append_left _ hq))
    hnd
    (fun q hq => hok q (List.mem_append_left _ hq))
    (fun q hq => hcomp q (List.mem_append_left _ hq))
  obtain ⟨restp, hchp⟩ := hcomp p
    (List.mem_append_right _ (List.mem_cons_self p l2))
  have hpfail := update_compet_updateFault c (processRows c l1 s).2.1 p.1
    p.2 (f p.2) restp e hchp hfail
  have hnd1 : (((processRows c l1 s).2.1).rows.map Competitor.id).Nodup := by
    rw [map_id_eq_skeleton_fst, hskel1, ← map_id_eq_skeleton_fst]
    exact hnd
  obtain ⟨h2, hskel2⟩ := processRows_all_ok c f l2 (processRows c l1 s).2.1
    (fun q hq => by
      rw [hskel1]
      exact hmem q (List.mem_append_right _ (List.mem_cons_of_mem p hq)))
    hnd1
    (fun q hq => hok q (List.mem_append_right _ hq))
    (fun q hq => hcomp q
      (List.mem_append_right _ (List.mem_cons_of_mem p hq)))
  unfold update_all_competitors
  rw [hsel]
  rw [if_neg (by rw [hrows]; simp)]
  rw [hrows, processRows_append c l1 (p :: l2) s]
  simp only [processRows, hpfail, h1, h2, List.map_append, List.length_append,
    List.length_map]

/-- Witness for C3: three null rows; the update of id 2 raises, ids 1 and 3
are processed and returned in order. -/
theorem spec_update_all_one_failure_witness :
    (update_all_competitors batchClients
        ⟨[⟨1, "A", none⟩, ⟨2, "B", none⟩, ⟨3, "C", none⟩]⟩).1 =
      .success (.batchSuccess 2
        [⟨1, "A", some "text".trim⟩, ⟨3, "C", some "text".trim⟩]) := by
  have h := spec_update_all_one_failure batchClients
    ⟨[⟨1, "A", none⟩, ⟨2, "B", none⟩, ⟨3, "C", none⟩]⟩
    [(1, "A")] [(3, "C")] (2, "B") "row boom" (fun _ => "text")
    rfl rfl (by decide)
    (by intro q hq; fin_cases hq <;> rfl)
    rfl
    (by intro q hq; exact ⟨[], rfl⟩)
  simpa using h

end CompetitorPositioning
